import Mathlib

/-!
Shallow embedding of the ghala-hooks webhook service core
(`app/webhooks/utils.py`, `app/webhooks/events.py`,
`app/schemas/webhooks.py`, `app/routes/webhooks.py`).

Conventions of the embedding:
* Python `str` is Lean `String`; raw byte sequences are `List Nat`
  (each entry `< 256`).  A request body that the code runs
  `body.decode("utf-8")` on is modelled as the `String` it decodes to,
  and its raw bytes are recovered with `utf8Encode` (UTF-8 decode
  followed by encode is the identity on valid UTF-8 byte strings).
* `float` arithmetic on timestamps is modelled with `ℚ`; the result of
  the Python `float(timestamp)` parse is threaded as an explicit
  `Option ℚ` argument (library parsing, not repository code).
* `raise HTTPException` is modelled with `Except WebhookError`.
* `async` handler invocation inside `WebhookEvents.dispatch` is a
  sequential loop in the source (each handler awaited to completion
  before the next starts), so it is embedded as structural recursion
  over the handler list.
-/

namespace GhalaHooks

/-! ## UTF-8 encoding (model of Python `str.encode("utf-8")`) -/

/-- Standard UTF-8 encoding of one Unicode scalar value, as byte values. -/
def utf8EncodeChar (c : Char) : List Nat :=
  let n := c.toNat
  if n < 0x80 then [n]
  else if n < 0x800 then
    [0xC0 + n / 0x40, 0x80 + n % 0x40]
  else if n < 0x10000 then
    [0xE0 + n / 0x1000, 0x80 + (n / 0x40) % 0x40, 0x80 + n % 0x40]
  else
    [0xF0 + n / 0x40000, 0x80 + (n / 0x1000) % 0x40,
     0x80 + (n / 0x40) % 0x40, 0x80 + n % 0x40]

/-- UTF-8 byte sequence of a string (model of `s.encode("utf-8")`). -/
def utf8Encode (s : String) : List Nat :=
  (s.data.map utf8EncodeChar).flatten

/-! ## SHA-256 (model of Python `hashlib.sha256`), over byte lists -/

/-- Truncate to a 32-bit word. -/
def w32 (n : Nat) : Nat := n % 4294967296

/-- 32-bit right rotation. -/
def rotr (x n : Nat) : Nat :=
  w32 ((x >>> n) ||| (x <<< (32 - n)))

/-- The 64 SHA-256 round constants. -/
def sha256K : List Nat :=
  [1116352408, 1899447441, 3049323471, 3921009573, 961987163,
   1508970993, 2453635748, 2870763221, 3624381080, 310598401,
   607225278, 1426881987, 1925078388, 2162078206, 2614888103,
   3248222580, 3835390401, 4022224774, 264347078, 604807628,
   770255983, 1249150122, 1555081692, 1996064986, 2554220882,
   2821834349, 2952996808, 3210313671, 3336571891, 3584528711,
   113926993, 338241895, 666307205, 773529912, 1294757372,
   1396182291, 1695183700, 1986661051, 2177026350, 2456956037,
   2730485921, 2820302411, 3259730800, 3345764771, 3516065817,
   3600352804, 4094571909, 275423344, 430227734, 506948616,
   659060556, 883997877, 958139571, 1322822218, 1537002063,
   1747873779, 1955562222, 2024104815, 2227730452, 2361852424,
   2428436474, 2756734187, 3204031479, 3329325298]

/-- SHA-256 initial hash state. -/
def sha256H0 : List Nat :=
  [1779033703, 3144134277, 1013904242, 2773480762,
   1359893119, 2600822924, 528734635, 1541459225]

/-- Big-endian assembly of four bytes into a 32-bit word. -/
def word32OfBytes : List Nat → Nat
  | [a, b, c, d] => ((a * 256 + b) * 256 + c) * 256 + d
  | _ => 0

/-- Split a list into consecutive chunks of size `k + 1`. -/
def chunksOf (k : Nat) : List Nat → List (List Nat)
  | [] => []
  | x :: xs => (x :: xs).take (k + 1) :: chunksOf k ((x :: xs).drop (k + 1))
termination_by l => l.length
decreasing_by
  simp
  omega

/-- SHA-256 message padding: append `0x80`, zero bytes to 56 mod 64,
then the bit length as an 8-byte big-endian integer. -/
def sha256Pad (msg : List Nat) : List Nat :=
  let len := msg.length
  let padZeros := (55 + 64 - len % 64) % 64
  let bitLen := len * 8
  msg ++ [0x80] ++ List.replicate padZeros 0 ++
    [w32 (bitLen / 2 ^ 56) % 256, (bitLen / 2 ^ 48) % 256,
     (bitLen / 2 ^ 40) % 256, (bitLen / 2 ^ 32) % 256,
     (bitLen / 2 ^ 24) % 256, (bitLen / 2 ^ 16) % 256,
     (bitLen / 2 ^ 8) % 256, bitLen % 256]

/-- Message schedule: extend the 16 block words to 64 words. -/
def sha256Schedule (block : List Nat) : List Nat :=
  let w0 := (chunksOf 3 block).map word32OfBytes
  (List.range 48).foldl
    (fun w _ =>
      let i := w.length
      let s0 :=
        let x := w.getD (i - 15) 0
        (rotr x 7) ^^^ (rotr x 18) ^^^ (x >>> 3)
      let s1 :=
        let x := w.getD (i - 2) 0
        (rotr x 17) ^^^ (rotr x 19) ^^^ (x >>> 10)
      w ++ [w32 (w.getD (i - 16) 0 + s0 + w.getD (i - 7) 0 + s1)])
    w0

/-- One SHA-256 round. -/
def sha256Round (state : List Nat) (kw : Nat × Nat) : List Nat :=
  match state with
  | [a, b, c, d, e, f, g, h] =>
    let s1 := (rotr e 6) ^^^ (rotr e 11) ^^^ (rotr e 25)
    let ch := (e &&& f) ^^^ ((2 ^ 32 - 1 - e) &&& g)
    let temp1 := w32 (h + s1 + ch + kw.1 + kw.2)
    let s0 := (rotr a 2) ^^^ (rotr a 13) ^^^ (rotr a 22)
    let maj := (a &&& b) ^^^ (a &&& c) ^^^ (b &&& c)
    let temp2 := w32 (s0 + maj)
    [w32 (temp1 + temp2), a, b, c, w32 (d + temp1), e, f, g]
  | other => other

/-- Compress one 64-byte block into the running hash state. -/
def sha256Compress (state : List Nat) (block : List Nat) : List Nat :=
  let ws := sha256Schedule block
  let final := (sha256K.zip ws).foldl sha256Round state
  (state.zip final).map (fun p => w32 (p.1 + p.2))

/-- Serialize the 8-word state to the 32-byte big-endian digest. -/
def sha256Serialize (state : List Nat) : List Nat :=
  (state.map (fun x =>
    [x / 2 ^ 24 % 256, x / 2 ^ 16 % 256, x / 2 ^ 8 % 256, x % 256])).flatten

/-- SHA-256 digest of a byte list. -/
def sha256 (msg : List Nat) : List Nat :=
  sha256Serialize ((chunksOf 63 (sha256Pad msg)).foldl sha256Compress sha256H0)

/-! ## HMAC-SHA256 (model of Python `hmac.new(key, msg, hashlib.sha256)`) -/

/-- HMAC-SHA256 of a message under a key (RFC 2104 with SHA-256,
block size 64). -/
def hmacSha256 (key msg : List Nat) : List Nat :=
  let k0 := if key.length > 64 then sha256 key else key
  let kPad := k0 ++ List.replicate (64 - k0.length) 0
  let ipad := kPad.map (fun b => b ^^^ 0x36)
  let opad := kPad.map (fun b => b ^^^ 0x5c)
  sha256 (opad ++ sha256 (ipad ++ msg))

/-! ## Base64 (model of Python `base64.b64encode(...).decode()`) -/

/-- The standard base64 alphabet. -/
def b64Alphabet : List Char :=
  "ABCDEFGHIJKLMNOPQRSTUVWXYZabcdefghijklmnopqrstuvwxyz0123456789+/".data

/-- One base64 character for a 6-bit value. -/
def b64Char (n : Nat) : Char := b64Alphabet.getD n '='

/-- Standard base64 encoding of a byte list, with `=` padding. -/
def base64Encode : List Nat → String
  | [] => ""
  | [a] =>
    ⟨[b64Char (a / 4), b64Char (a % 4 * 16), '=', '=']⟩
  | [a, b] =>
    ⟨[b64Char (a / 4), b64Char (a % 4 * 16 + b / 16), b64Char (b % 16 * 4), '=']⟩
  | a :: b :: c :: rest =>
    (⟨[b64Char (a / 4), b64Char (a % 4 * 16 + b / 16),
       b64Char (b % 16 * 4 + c / 64), b64Char (c % 64)]⟩ : String) ++
      base64Encode rest

/-! ## Error taxonomy (models of the `HTTPException`s raised in
`app/webhooks/utils.py` and `app/routes/webhooks.py`) -/

/-- The rejections the webhook pipeline can raise, with their detail
strings carried where the source interpolates one. -/
inductive WebhookError where
  | missingHeaders
  | invalidTimestamp
  | staleTimestamp
  | invalidSignature
  | decodeError (reason : String)
deriving Repr, DecidableEq

/-- HTTP status code attached to each error by the source
(`status_code=...` in the corresponding `HTTPException`). -/
def statusCode : WebhookError → Nat
  | .missingHeaders => 400
  | .invalidTimestamp => 400
  | .staleTimestamp => 400
  | .invalidSignature => 400
  | .decodeError _ => 422

/-! ## `app/webhooks/utils.py` -/

/-- Default `max_age_seconds` of `verify_timestamp` (300 in the source). -/
def defaultMaxAge : ℚ := 300

/-- Model of `verify_timestamp(timestamp, max_age_seconds)`.  The result
of the library call `float(timestamp)` is threaded in as `parsed`
(`none` when Python `float()` would raise `ValueError`); timestamps and
the clock are modelled with `ℚ`. -/
def verify_timestamp (parsed : Option ℚ) (now : ℚ) (maxAgeSeconds : ℚ) :
    Except WebhookError Unit :=
  match parsed with
  | none => .error .invalidTimestamp
  | some ts => if |now - ts| > maxAgeSeconds then .error .staleTimestamp else .ok ()

/-- The signature the source computes inside `verify_signature`:
base64 of the HMAC-SHA256, keyed on the secret's UTF-8 bytes, of the
UTF-8 bytes of `f"{timestamp}.{body.decode('utf-8')}"`.  `body` is the
UTF-8 decoding of the raw request body. -/
def expectedSignature (secret timestamp body : String) : String :=
  base64Encode (hmacSha256 (utf8Encode secret)
    (utf8Encode (timestamp ++ "." ++ body)))

/-- Model of `verify_signature(secret, timestamp, body, signature)`.
`hmac.compare_digest` on equal-length ASCII strings is equality (its
constant-time execution is a timing property, not a value property). -/
def verify_signature (secret timestamp body signature : String) :
    Except WebhookError Unit :=
  if signature = expectedSignature secret timestamp body then .ok ()
  else .error .invalidSignature

/-- ASCII lowercasing of one character (header names are ASCII). -/
def lowerChar (c : Char) : Char :=
  if c.toNat ≥ 65 ∧ c.toNat ≤ 90 then Char.ofNat (c.toNat + 32) else c

/-- Model of Python `k.lower()` on header names. -/
def pyLower (s : String) : String := ⟨s.data.map lowerChar⟩

/-- Model of the header-dict comprehension
`{k.lower(): v for k, v in request.headers.items()}`: lowercase the
names; on duplicate names the later entry wins (Python dict build). -/
def lowerDict (headers : List (String × String)) : List (String × String) :=
  headers.map (fun p => (pyLower p.1, p.2))

/-- Model of `dict.get`: value of the last entry with the given name, if any. -/
def dictGet (d : List (String × String)) (k : String) : Option String :=
  (d.reverse.find? (fun p => p.1 == k)).map (fun p => p.2)

/-- Python `a or b` on optional strings: `a` unless it is `None` or
empty (falsy), else `b`. -/
def pyOr (a b : Option String) : Option String :=
  match a with
  | none => b
  | some s => if s = "" then b else some s

/-- Model of `extract_webhook_data(request)`: look up
`x-ghala-timestamp` falling back (through Python `or`) to
`webhook-timestamp`, and `x-ghala-signature`, over the lowercased
header dict; reject with `MissingHeaders` when either value is falsy
(`None` or empty).  The body is returned unchanged. -/
def extract_webhook_data (headers : List (String × String)) (body : String) :
    Except WebhookError (String × String × String) :=
  let hs := lowerDict headers
  let timestamp := pyOr (dictGet hs "x-ghala-timestamp") (dictGet hs "webhook-timestamp")
  let signature := dictGet hs "x-ghala-signature"
  match timestamp, signature with
  | some t, some s =>
    if t = "" ∨ s = "" then .error .missingHeaders else .ok (t, s, body)
  | _, _ => .error .missingHeaders

/-! ## JSON values and pydantic-style decoding
(`app/schemas/webhooks.py`; all models set `Config.extra = "ignore"`) -/

/-- JSON values.  Numbers are modelled with `ℚ` (covers the integer and
decimal literals the service receives); object fields are an ordered
association list, later duplicates winning on lookup as in a Python
dict built by `json.loads`. -/
inductive Json where
  | null
  | bool (b : Bool)
  | num (q : ℚ)
  | str (s : String)
  | arr (elems : List Json)
  | obj (fields : List (String × Json))

/-- Lookup in a JSON object: last entry with the name wins. -/
def objGet (fs : List (String × Json)) (k : String) : Option Json :=
  (fs.reverse.find? (fun p => p.1 == k)).map (fun p => p.2)

/-- Python `int()` truncation toward zero, used by the pydantic v1
`int` validator on numeric input. -/
def pyTrunc (q : ℚ) : ℤ := if 0 ≤ q then ⌊q⌋ else ⌈q⌉

/-- Digit run to a number; `none` on a non-digit. -/
def digitsVal (ds : List Char) : Option Nat :=
  ds.foldl
    (fun acc c => match acc with
      | none => none
      | some n => if c.isDigit then some (n * 10 + (c.toNat - 48)) else none)
    (some 0)

/-- Model of Python `int(s)` on plain signed decimal literals. -/
def parseIntStr (s : String) : Option ℤ :=
  match s.data with
  | '-' :: ds => if ds = [] then none else (digitsVal ds).map (fun n => -(n : ℤ))
  | '+' :: ds => if ds = [] then none else (digitsVal ds).map (fun n => (n : ℤ))
  | ds => if ds = [] then none else (digitsVal ds).map (fun n => (n : ℤ))

/-- Model of Python `float(s)` on plain signed decimal literals
(`d+`, `d+.d*`, `.d+`); exponent/`inf`/`nan` forms are not modelled —
no claim depends on them. -/
def parseFloatStr (s : String) : Option ℚ :=
  let core (ds : List Char) : Option ℚ :=
    match ds.splitOn '.' with
    | [ip] =>
      if ip = [] then none else (digitsVal ip).map (fun n => (n : ℚ))
    | [ip, fp] =>
      if ip = [] ∧ fp = [] then none
      else
        match digitsVal ip, digitsVal fp with
        | some i, some f => some ((i : ℚ) + (f : ℚ) / (10 : ℚ) ^ fp.length)
        | _, _ => none
    | _ => none
  match s.data with
  | '-' :: ds => (core ds).map (fun q => -q)
  | '+' :: ds => core ds
  | ds => core ds

/-- pydantic v1 `int` field validation of a JSON value. -/
def asInt : Json → Option ℤ
  | .num q => some (pyTrunc q)
  | .str s => parseIntStr s
  | .bool b => some (if b then 1 else 0)
  | _ => none

/-- pydantic v1 `float` field validation of a JSON value. -/
def asFloat : Json → Option ℚ
  | .num q => some q
  | .str s => parseFloatStr s
  | .bool b => some (if b then 1 else 0)
  | _ => none

/-- pydantic `str` field validation of a JSON value (v1's
number-to-string coercion is not modelled — no claim depends on it). -/
def asStr : Json → Option String
  | .str s => some s
  | _ => none

/-- Required field: absent → "field required" error; present → convert. -/
def reqField (fs : List (String × Json)) (k : String) (conv : Json → Option α) :
    Except String α :=
  match objGet fs k with
  | none => .error (k ++ ": field required")
  | some v =>
    match conv v with
    | some a => .ok a
    | none => .error (k ++ ": invalid value")

/-- Optional field with a default: absent → default, explicit `null` →
`none`, present → convert. -/
def optField (fs : List (String × Json)) (k : String) (conv : Json → Option α)
    (dflt : Option α) : Except String (Option α) :=
  match objGet fs k with
  | none => .ok dflt
  | some .null => .ok none
  | some v =>
    match conv v with
    | some a => .ok (some a)
    | none => .error (k ++ ": invalid value")

/-- Required nested-model field. -/
def reqSub (fs : List (String × Json)) (k : String)
    (dec : Json → Except String α) : Except String α :=
  match objGet fs k with
  | none => .error (k ++ ": field required")
  | some v => dec v

/-- The `Customer` model. -/
structure Customer where
  name : String
  phone : Option String
  phone_number : Option String
  email : Option String

/-- The `Product` model. -/
structure Product where
  id : Option ℤ
  name : String
  price : ℚ
  unique_id : Option String
  discount_amount : Option ℚ
  additional_cost : Option ℚ
  additional_cost_description : Option String
  quantity : ℚ

/-- The `OrderData` model. -/
structure OrderData where
  customer : Customer
  order_id : ℤ
  total : ℚ
  discount_total : Option ℚ
  promo_discount_amount : Option ℚ
  products : List Product

/-- The `PaymentData` model. -/
structure PaymentData where
  order_id : ℤ
  amount : ℚ
  currency : String
  payment_id : String
  status : String
  customer : Customer

/-- The `OrderCreatedWebhook` envelope. -/
structure OrderCreatedWebhook where
  event : String
  data : OrderData

/-- The `OrderUpdatedWebhook` envelope. -/
structure OrderUpdatedWebhook where
  event : String
  data : OrderData

/-- The `OrderCancelledWebhook` envelope (optional float `timestamp`). -/
structure OrderCancelledWebhook where
  event : String
  timestamp : Option ℚ
  data : OrderData

/-- The `PaymentSuccessfulWebhook` envelope. -/
structure PaymentSuccessfulWebhook where
  event : String
  timestamp : Option ℚ
  data : PaymentData

/-- The `PaymentFailedWebhook` envelope. -/
structure PaymentFailedWebhook where
  event : String
  timestamp : Option ℚ
  data : PaymentData

/-- Validation of the `Customer` model: required `name`, optional
`phone`/`phone_number`/`email`; extra keys are never read
(`extra = "ignore"`). -/
def decodeCustomer : Json → Except String Customer
  | .obj fs => do
    let name ← reqField fs "name" asStr
    let phone ← optField fs "phone" asStr none
    let phone_number ← optField fs "phone_number" asStr none
    let email ← optField fs "email" asStr none
    .ok ⟨name, phone, phone_number, email⟩
  | _ => .error "customer: value is not a valid dict"

/-- Validation of the `Product` model. -/
def decodeProduct : Json → Except String Product
  | .obj fs => do
    let id ← optField fs "id" asInt none
    let name ← reqField fs "name" asStr
    let price ← reqField fs "price" asFloat
    let unique_id ← optField fs "unique_id" asStr none
    let discount_amount ← optField fs "discount_amount" asFloat (some 0)
    let additional_cost ← optField fs "additional_cost" asFloat (some 0)
    let acd ← optField fs "additional_cost_description" asStr none
    let quantity ← reqField fs "quantity" asFloat
    .ok ⟨id, name, price, unique_id, discount_amount, additional_cost, acd, quantity⟩
  | _ => .error "product: value is not a valid dict"

/-- A `List[Product]` field value. -/
def decodeProductList : Json → Except String (List Product)
  | .arr es => es.mapM decodeProduct
  | _ => .error "products: value is not a valid list"

/-- Validation of the `OrderData` model: required `customer`,
`order_id`, `total`, `products`; optional `discount_total` and
`promo_discount_amount` defaulting to `0.0`; extra keys never read. -/
def decodeOrderData : Json → Except String OrderData
  | .obj fs => do
    let customer ← reqSub fs "customer" decodeCustomer
    let order_id ← reqField fs "order_id" asInt
    let total ← reqField fs "total" asFloat
    let discount_total ← optField fs "discount_total" asFloat (some 0)
    let promo ← optField fs "promo_discount_amount" asFloat (some 0)
    let products ← reqSub fs "products" decodeProductList
    .ok ⟨customer, order_id, total, discount_total, promo, products⟩
  | _ => .error "value is not a valid dict"

/-- Validation of the `PaymentData` model: all six fields required. -/
def decodePaymentData : Json → Except String PaymentData
  | .obj fs => do
    let order_id ← reqField fs "order_id" asInt
    let amount ← reqField fs "amount" asFloat
    let currency ← reqField fs "currency" asStr
    let payment_id ← reqField fs "payment_id" asStr
    let status ← reqField fs "status" asStr
    let customer ← reqSub fs "customer" decodeCustomer
    .ok ⟨order_id, amount, currency, payment_id, status, customer⟩
  | _ => .error "value is not a valid dict"

/-- Validation of the `OrderCreatedWebhook` envelope. -/
def decodeOrderCreatedWebhook : Json → Except String OrderCreatedWebhook
  | .obj fs => do
    let event ← reqField fs "event" asStr
    let data ← reqSub fs "data" decodeOrderData
    .ok ⟨event, data⟩
  | _ => .error "value is not a valid dict"

/-- Validation of the `OrderUpdatedWebhook` envelope. -/
def decodeOrderUpdatedWebhook : Json → Except String OrderUpdatedWebhook
  | .obj fs => do
    let event ← reqField fs "event" asStr
    let data ← reqSub fs "data" decodeOrderData
    .ok ⟨event, data⟩
  | _ => .error "value is not a valid dict"

/-- Validation of the `OrderCancelledWebhook` envelope. -/
def decodeOrderCancelledWebhook : Json → Except String OrderCancelledWebhook
  | .obj fs => do
    let event ← reqField fs "event" asStr
    let timestamp ← optField fs "timestamp" asFloat none
    let data ← reqSub fs "data" decodeOrderData
    .ok ⟨event, timestamp, data⟩
  | _ => .error "value is not a valid dict"

/-- Validation of the `PaymentSuccessfulWebhook` envelope. -/
def decodePaymentSuccessfulWebhook : Json → Except String PaymentSuccessfulWebhook
  | .obj fs => do
    let event ← reqField fs "event" asStr
    let timestamp ← optField fs "timestamp" asFloat none
    let data ← reqSub fs "data" decodePaymentData
    .ok ⟨event, timestamp, data⟩
  | _ => .error "value is not a valid dict"

/-- Validation of the `PaymentFailedWebhook` envelope. -/
def decodePaymentFailedWebhook : Json → Except String PaymentFailedWebhook
  | .obj fs => do
    let event ← reqField fs "event" asStr
    let timestamp ← optField fs "timestamp" asFloat none
    let data ← reqSub fs "data" decodePaymentData
    .ok ⟨event, timestamp, data⟩
  | _ => .error "value is not a valid dict"

/-! ## Payloads and the event bus (`app/webhooks/events.py`) -/

/-- The value bound to `payload` in `handle_webhook`: either the
decoded body string (loose mode, no model) or a validated envelope. -/
inductive ParsedPayload where
  | rawStr (s : String)
  | orderCreated (w : OrderCreatedWebhook)
  | orderUpdated (w : OrderUpdatedWebhook)
  | orderCancelled (w : OrderCancelledWebhook)
  | paymentSuccessful (w : PaymentSuccessfulWebhook)
  | paymentFailed (w : PaymentFailedWebhook)

/-- The value handed to `events.dispatch` as its payload argument. -/
inductive DispatchPayload where
  | raw (s : String)
  | order (d : OrderData)
  | payment (d : PaymentData)

/-- Model of `getattr(payload, "data", payload)`: an envelope yields
its `data` block; a plain string has no `data` attribute and passes
through unchanged. -/
def getDataAttr : ParsedPayload → DispatchPayload
  | .rawStr s => .raw s
  | .orderCreated w => .order w.data
  | .orderUpdated w => .order w.data
  | .orderCancelled w => .order w.data
  | .paymentSuccessful w => .payment w.data
  | .paymentFailed w => .payment w.data

/-- The `WebhookMeta` record (a `TypedDict` with `total=False`: every key
optional). -/
structure WebhookMeta where
  event : Option String := none
  timestamp : Option String := none
  signature : Option String := none
deriving Repr, DecidableEq

/-- A subscribed handler: an identity (for traces) and its behaviour —
`.error` models the coroutine raising. -/
structure Handler where
  id : Nat
  run : DispatchPayload → WebhookMeta → Except String Unit

/-- The handlers the bus holds for one event name, in registration
order (the `defaultdict(list)` entry built by `WebhookEvents.on`). -/
def handlersFor (subs : List (String × Handler)) (name : String) : List Handler :=
  (subs.filter (fun p => p.1 == name)).map (fun p => p.2)

/-- One `for handler in ...: await handler(payload, meta)` loop: each
handler awaited to completion before the next starts; a raise stops
the loop.  Returns the invocation trace (handler id, meta it received)
and the propagated exception, if any. -/
def runHandlers (hs : List Handler) (payload : DispatchPayload)
    (meta : WebhookMeta) : List (Nat × WebhookMeta) × Option String :=
  match hs with
  | [] => ([], none)
  | h :: rest =>
    match h.run payload meta with
    | .ok _ =>
      let r := runHandlers rest payload meta
      ((h.id, meta) :: r.1, r.2)
    | .error e => ([(h.id, meta)], some e)

/-- Model of `WebhookEvents.dispatch(event_name, payload, meta)`:
stamp `meta = {**meta, "event": event_name}`, run the exact-name loop,
then (if it did not raise) the `"*"` loop. -/
def dispatch (subs : List (String × Handler)) (event_name : String)
    (payload : DispatchPayload) (meta : WebhookMeta) :
    List (Nat × WebhookMeta) × Option String :=
  let m := { meta with event := some event_name }
  let r1 := runHandlers (handlersFor subs event_name) payload m
  match r1.2 with
  | some e => (r1.1, some e)
  | none =>
    let r2 := runHandlers (handlersFor subs "*") payload m
    (r1.1 ++ r2.1, r2.2)

/-! ## The route pipeline (`app/routes/webhooks.py`) -/

/-- The pydantic model argument of `handle_webhook`. -/
inductive WebhookModel where
  | orderCreated
  | orderUpdated
  | orderCancelled
  | paymentSuccessful
  | paymentFailed

/-- Model of `model.parse_raw(body)` after JSON parsing succeeded. -/
def decodeModel (m : WebhookModel) (j : Json) : Except String ParsedPayload :=
  match m with
  | .orderCreated => (decodeOrderCreatedWebhook j).map .orderCreated
  | .orderUpdated => (decodeOrderUpdatedWebhook j).map .orderUpdated
  | .orderCancelled => (decodeOrderCancelledWebhook j).map .orderCancelled
  | .paymentSuccessful => (decodePaymentSuccessfulWebhook j).map .paymentSuccessful
  | .paymentFailed => (decodePaymentFailedWebhook j).map .paymentFailed

/-- The `WebhookResponse` body (message only). -/
structure WebhookResponse where
  message : String
deriving Repr, DecidableEq

/-- The arguments `handle_webhook` passes to `events.dispatch`. -/
structure DispatchCall where
  event : String
  payload : DispatchPayload
  meta : WebhookMeta

/-- The `if model: payload = model.parse_raw(body) ... else: payload =
json_body` block: without a model the decoded body string is the
payload (loose mode); with a model, a JSON-syntax or validation
failure becomes a 422 `decodeError` (`Invalid payload: ...`). -/
def parse_payload (parseJson : String → Option Json)
    (model : Option WebhookModel) (body : String) :
    Except WebhookError ParsedPayload :=
  match model with
  | none => .ok (.rawStr body)
  | some m =>
    match parseJson body with
    | none => .error (.decodeError "Invalid payload: JSON parse error")
    | some j =>
      match decodeModel m j with
      | .error e => .error (.decodeError ("Invalid payload: " ++ e))
      | .ok p => .ok p

/-- Model of `handle_webhook(request, secret, event_name, model)` up to
(and including) building the `events.dispatch` call.  `parseFloat`
stands for the library `float()` parse used by `verify_timestamp`;
`parseJson` for the JSON parser inside `model.parse_raw` (`none` when
the body is not syntactically valid JSON); `body` is the UTF-8
decoding of the raw request body, so the `body.decode("utf-8")` step
(`json_body`) is the identity here. -/
def handle_webhook (parseFloat : String → Option ℚ)
    (parseJson : String → Option Json) (now : ℚ)
    (headers : List (String × String)) (body : String)
    (secret : String) (event_name : String) (model : Option WebhookModel) :
    Except WebhookError (DispatchCall × WebhookResponse) :=
  match extract_webhook_data headers body with
  | .error e => .error e
  | .ok (timestamp, signature, bodyStr) =>
    match verify_timestamp (parseFloat timestamp) now defaultMaxAge with
    | .error e => .error e
    | .ok _ =>
      match verify_signature secret timestamp bodyStr signature with
      | .error e => .error e
      | .ok _ =>
        match parse_payload parseJson model bodyStr with
        | .error e => .error e
        | .ok payload =>
          .ok (⟨event_name, getDataAttr payload,
                { timestamp := some timestamp, event := some event_name }⟩,
               ⟨event_name ++ " webhook received and verified"⟩)

/-- A falsy Python string-or-`None`: absent, or present and empty. -/
def falsyStr (o : Option String) : Prop := o = none ∨ o = some ""

/-! ## Event-bus lemmas -/

/-- UTF-8 encoding distributes over string append. -/
theorem utf8Encode_append (a b : String) :
    utf8Encode (a ++ b) = utf8Encode a ++ utf8Encode b := by
  cases a with
  | mk da =>
    cases b with
    | mk db =>
      simp [utf8Encode, String.instAppend, String.append]

/-- A loop over handlers that all succeed produces the full trace in
list order and no exception. -/
theorem runHandlers_all_ok (hs : List Handler) (p : DispatchPayload)
    (m : WebhookMeta) (h : ∀ hd ∈ hs, hd.run p m = .ok ()) :
    runHandlers hs p m = (hs.map (fun hd => (hd.id, m)), none) := by
  induction hs with
  | nil => rfl
  | cons hd t ih =>
    have h1 : hd.run p m = .ok () := h hd (by simp)
    have h2 := ih (fun x hx => h x (by simp [hx]))
    simp [runHandlers, h1, h2]

/-- Splitting a handler loop: the second part runs only when the first
part raised no exception. -/
theorem runHandlers_append (a b : List Handler) (p : DispatchPayload)
    (m : WebhookMeta) :
    runHandlers (a ++ b) p m =
      match (runHandlers a p m).2 with
      | some _ => runHandlers a p m
      | none =>
        ((runHandlers a p m).1 ++ (runHandlers b p m).1,
          (runHandlers b p m).2) := by
  induction a with
  | nil => simp [runHandlers]
  | cons hd t ih =>
    cases hrun : hd.run p m with
    | error e => simp [runHandlers, hrun]
    | ok u =>
      cases u
      cases h2 : (runHandlers t p m).2 with
      | none => simp [runHandlers, hrun, ih, h2]
      | some e => simp [runHandlers, hrun, ih, h2]

/-- Every handler invocation in a loop receives the same metadata
value the loop was started with. -/
theorem runHandlers_meta (hs : List Handler) (p : DispatchPayload)
    (m : WebhookMeta) :
    ∀ entry ∈ (runHandlers hs p m).1, entry.2 = m := by
  induction hs with
  | nil => simp [runHandlers]
  | cons hd t ih =>
    intro entry hmem
    cases hrun : hd.run p m with
    | error e =>
      simp [runHandlers, hrun] at hmem
      simp [hmem]
    | ok u =>
      cases u
      simp [runHandlers, hrun] at hmem
      rcases hmem with h | h
      · simp [h]
      · exact ih entry h

/-- The `dispatch` operation is the single loop over exact-name handlers followed by
wildcard handlers, with the stamped metadata. -/
theorem dispatch_eq (subs : List (String × Handler)) (name : String)
    (p : DispatchPayload) (meta : WebhookMeta) :
    dispatch subs name p meta
      = runHandlers (handlersFor subs name ++ handlersFor subs "*") p
          { meta with event := some name } := by
  rw [runHandlers_append]
  cases h : (runHandlers (handlersFor subs name) p
      { meta with event := some name }).2 with
  | none => simp [dispatch, h]
  | some e =>
    simp only [dispatch, h]
    rw [← h]

/-! ## Claim theorems -/

/-- C1: for a dispatch whose handlers all complete normally, the
invocation sequence is exactly the exact-name handlers in registration
order followed by the wildcard handlers in registration order — each
awaited to completion before the next starts (the loop is sequential),
no exception escapes, and every registered handler is invoked exactly
once (per registration entry). -/
theorem dispatch_order_and_once (subs : List (String × Handler))
    (name : String) (payload : DispatchPayload) (meta : WebhookMeta)
    (hok : ∀ hd ∈ handlersFor subs name ++ handlersFor subs "*",
      hd.run payload { meta with event := some name } = .ok ()) :
    (dispatch subs name payload meta).1
      = (handlersFor subs name).map
          (fun hd => (hd.id, { meta with event := some name }))
        ++ (handlersFor subs "*").map
          (fun hd => (hd.id, { meta with event := some name }))
    ∧ (dispatch subs name payload meta).2 = none
    ∧ ∀ i : Nat,
        ((dispatch subs name payload meta).1.map Prod.fst).count i
          = ((handlersFor subs name).map Handler.id).count i
            + ((handlersFor subs "*").map Handler.id).count i := by
  rw [dispatch_eq]
  have h := runHandlers_all_ok _ payload { meta with event := some name } hok
  refine ⟨?_, ?_, ?_⟩
  · rw [h]
    simp [List.map_append]
  · rw [h]
  · intro i
    rw [h]
    simp only [List.map_append, List.map_map, List.count_append]
    rfl

/-- C1 witness: two handlers under `"a"` and one under `"*"`; the
dispatch of `"a"` invokes ids 1, 3, 2 in that order, exactly once each,
with no exception. -/
theorem dispatch_order_and_once_witness :
    (dispatch
      [("a", ⟨1, fun _ _ => .ok ()⟩), ("*", ⟨2, fun _ _ => .ok ()⟩),
       ("a", ⟨3, fun _ _ => .ok ()⟩)]
      "a" (.raw "x") {}).1
      = [(1, { event := some "a" }), (3, { event := some "a" }),
         (2, { event := some "a" })]
    ∧ (dispatch
      [("a", ⟨1, fun _ _ => .ok ()⟩), ("*", ⟨2, fun _ _ => .ok ()⟩),
       ("a", ⟨3, fun _ _ => .ok ()⟩)]
      "a" (.raw "x") {}).2 = none := by
  have h := dispatch_order_and_once
    [("a", ⟨1, fun _ _ => .ok ()⟩), ("*", ⟨2, fun _ _ => .ok ()⟩),
     ("a", ⟨3, fun _ _ => .ok ()⟩)]
    "a" (.raw "x") {}
    (by
      intro hd hmem
      simp [handlersFor] at hmem
      rcases hmem with h | h | h <;> rw [h])
  exact ⟨h.1.trans (by rfl), h.2.1⟩

/-- C5: if the handlers before position `k` of the invocation sequence
succeed and the handler at position `k` raises, the dispatch trace is
exactly the first `k + 1` handlers — nothing after the failing handler
(wildcard handlers included) is invoked — and the exception propagates
to the dispatch caller. -/
theorem dispatch_error_stops (subs : List (String × Handler))
    (name : String) (payload : DispatchPayload) (meta : WebhookMeta)
    (pre : List Handler) (k : Handler) (post : List Handler) (e : String)
    (hseq : handlersFor subs name ++ handlersFor subs "*" = pre ++ k :: post)
    (hpre : ∀ hd ∈ pre,
      hd.run payload { meta with event := some name } = .ok ())
    (hfail : k.run payload { meta with event := some name } = .error e) :
    dispatch subs name payload meta
      = (pre.map (fun hd => (hd.id, { meta with event := some name }))
          ++ [(k.id, { meta with event := some name })], some e) := by
  rw [dispatch_eq, hseq, runHandlers_append]
  have hp := runHandlers_all_ok pre payload { meta with event := some name } hpre
  simp [hp, runHandlers, hfail]

/-- C5 witness: of four registered handlers the second raises "boom";
only ids 1 and 2 are invoked, the later exact-name handler and the
wildcard handler are skipped, and "boom" propagates. -/
theorem dispatch_error_stops_witness :
    dispatch
      [("a", ⟨1, fun _ _ => .ok ()⟩), ("a", ⟨2, fun _ _ => .error "boom"⟩),
       ("a", ⟨3, fun _ _ => .ok ()⟩), ("*", ⟨4, fun _ _ => .ok ()⟩)]
      "a" (.raw "x") {}
      = ([(1, { event := some "a" }), (2, { event := some "a" })],
          some "boom") := by
  have h := dispatch_error_stops
    [("a", ⟨1, fun _ _ => .ok ()⟩), ("a", ⟨2, fun _ _ => .error "boom"⟩),
     ("a", ⟨3, fun _ _ => .ok ()⟩), ("*", ⟨4, fun _ _ => .ok ()⟩)]
    "a" (.raw "x") {}
    [⟨1, fun _ _ => .ok ()⟩] ⟨2, fun _ _ => .error "boom"⟩
    [⟨3, fun _ _ => .ok ()⟩, ⟨4, fun _ _ => .ok ()⟩] "boom"
    (by rfl)
    (by
      intro hd hmem
      simp at hmem
      rw [hmem])
    (by rfl)
  exact h.trans (by rfl)

/-- C9: every handler invoked by a dispatch receives metadata whose
`event` field is the dispatched event name (any caller-supplied value
overwritten) and whose `timestamp` and `signature` fields are the
caller-supplied ones, unchanged. -/
theorem dispatch_meta_stamped (subs : List (String × Handler))
    (name : String) (payload : DispatchPayload) (meta : WebhookMeta)
    (entry : Nat × WebhookMeta)
    (h : entry ∈ (dispatch subs name payload meta).1) :
    entry.2.event = some name ∧ entry.2.timestamp = meta.timestamp
      ∧ entry.2.signature = meta.signature := by
  rw [dispatch_eq] at h
  have := runHandlers_meta _ payload { meta with event := some name } entry h
  rw [this]
  exact ⟨rfl, rfl, rfl⟩

/-- C9 witness: a caller-supplied `event` of "evil" is overwritten with
the dispatched name "a" while the timestamp "t" and signature "s" reach
the handler unchanged. -/
theorem dispatch_meta_stamped_witness :
    (({ event := some "a", timestamp := some "t", signature := some "s" }
        : WebhookMeta).event = some "a")
    ∧ (({ event := some "a", timestamp := some "t", signature := some "s" }
        : WebhookMeta).timestamp
          = ({ event := some "evil", timestamp := some "t",
               signature := some "s" } : WebhookMeta).timestamp)
    ∧ (({ event := some "a", timestamp := some "t", signature := some "s" }
        : WebhookMeta).signature
          = ({ event := some "evil", timestamp := some "t",
               signature := some "s" } : WebhookMeta).signature) :=
  dispatch_meta_stamped [("a", ⟨1, fun _ _ => .ok ()⟩)] "a" (.raw "x")
    { event := some "evil", timestamp := some "t", signature := some "s" }
    (1, { event := some "a", timestamp := some "t", signature := some "s" })
    (by
      rw [dispatch_eq]
      simp [handlersFor, runHandlers])

/-- The signed content is the timestamp bytes, one ASCII period (46),
then the exact body bytes — the UTF-8 decode/encode pair in
`f"{timestamp}.{body.decode('utf-8')}"` re-encodes nothing. -/
theorem signedContent_bytes (timestamp body : String) :
    utf8Encode (timestamp ++ "." ++ body)
      = utf8Encode timestamp ++ [46] ++ utf8Encode body := by
  rw [utf8Encode_append, utf8Encode_append]
  have h : utf8Encode "." = [46] := by decide
  rw [h]

/-- C2: signature verification computes HMAC-SHA256 keyed on the
secret over timestamp bytes, a literal ASCII period (byte 46), and the
exact raw body bytes, base64-encodes the digest, and fails with
`InvalidSignature` (status 400) exactly when the supplied signature
differs from that encoding (succeeding exactly when it matches). -/
theorem verify_signature_spec (secret timestamp body signature : String) :
    (verify_signature secret timestamp body signature
        = .error .invalidSignature
      ↔ signature ≠ base64Encode (hmacSha256 (utf8Encode secret)
          (utf8Encode timestamp ++ [46] ++ utf8Encode body)))
    ∧ (verify_signature secret timestamp body signature = .ok ()
      ↔ signature = base64Encode (hmacSha256 (utf8Encode secret)
          (utf8Encode timestamp ++ [46] ++ utf8Encode body)))
    ∧ statusCode .invalidSignature = 400 := by
  have hb : expectedSignature secret timestamp body
      = base64Encode (hmacSha256 (utf8Encode secret)
          (utf8Encode timestamp ++ [46] ++ utf8Encode body)) := by
    rw [expectedSignature, signedContent_bytes]
  rw [← hb]
  by_cases h : signature = expectedSignature secret timestamp body
  · simp [verify_signature, h, statusCode]
  · simp [verify_signature, h, statusCode]

/-- C8: the signature computed by the authenticator's own algorithm
over `(secret, timestamp, body)` verifies successfully when passed
back to `verify_signature` with the same inputs. -/
theorem verify_signature_roundtrip (secret timestamp body : String) :
    verify_signature secret timestamp body
      (expectedSignature secret timestamp body) = .ok () := by
  simp [verify_signature]

/-- C3: timestamp verification fails with `InvalidTimestamp` (400)
exactly when the timestamp does not parse as a number (`float()`
raised, modelled as `parsed = none`), fails with `StaleTimestamp`
(400) exactly when the parsed value is more than `maxAge` away from
`now` in absolute value, and succeeds otherwise; the
`max_age_seconds` default is 300.  The check never looks at a
signature. -/
theorem verify_timestamp_spec (parsed : Option ℚ) (now maxAge : ℚ) :
    (verify_timestamp parsed now maxAge = .error .invalidTimestamp
      ↔ parsed = none)
    ∧ (verify_timestamp parsed now maxAge = .error .staleTimestamp
      ↔ ∃ ts, parsed = some ts ∧ |now - ts| > maxAge)
    ∧ (verify_timestamp parsed now maxAge = .ok ()
      ↔ ∃ ts, parsed = some ts ∧ |now - ts| ≤ maxAge)
    ∧ defaultMaxAge = 300
    ∧ statusCode .invalidTimestamp = 400
    ∧ statusCode .staleTimestamp = 400 := by
  cases parsed with
  | none => simp [verify_timestamp, defaultMaxAge, statusCode]
  | some ts =>
    by_cases h : |now - ts| > maxAge
    · have h2 : ¬ |now - ts| ≤ maxAge := not_le.mpr h
      simp [verify_timestamp, h, h2, defaultMaxAge, statusCode]
    · have h2 : |now - ts| ≤ maxAge := not_lt.mp h
      simp [verify_timestamp, h, h2, defaultMaxAge, statusCode]

/-- C4: the pipeline checks in the fixed order header presence →
timestamp freshness → signature: a missing-headers rejection (400) is
returned for every parser, clock and secret — before any timestamp
parsing or HMAC computation can matter; a timestamp failure is
returned whatever the signature is; a signature mismatch is rejected
only after extraction and timestamp both passed. -/
theorem pipeline_check_order (parseFloat : String → Option ℚ)
    (parseJson : String → Option Json) (now : ℚ)
    (headers : List (String × String)) (body : String)
    (secret event_name : String) (model : Option WebhookModel) :
    (extract_webhook_data headers body = .error .missingHeaders →
      handle_webhook parseFloat parseJson now headers body secret
        event_name model = .error .missingHeaders)
    ∧ (∀ t s b e, extract_webhook_data headers body = .ok (t, s, b) →
        verify_timestamp (parseFloat t) now defaultMaxAge = .error e →
        handle_webhook parseFloat parseJson now headers body secret
          event_name model = .error e)
    ∧ (∀ t s b, extract_webhook_data headers body = .ok (t, s, b) →
        verify_timestamp (parseFloat t) now defaultMaxAge = .ok () →
        s ≠ expectedSignature secret t b →
        handle_webhook parseFloat parseJson now headers body secret
          event_name model = .error .invalidSignature)
    ∧ statusCode .missingHeaders = 400 := by
  refine ⟨?_, ?_, ?_, rfl⟩
  · intro h
    unfold handle_webhook
    rw [h]
  · intro t s b e hext hts
    unfold handle_webhook
    rw [hext]
    dsimp only
    rw [hts]
  · intro t s b hext hts hsig
    unfold handle_webhook
    rw [hext]
    dsimp only
    rw [hts]
    dsimp only
    rw [show verify_signature secret t b s = .error .invalidSignature from by
      simp [verify_signature, hsig]]

/-- C4 witness: with no headers at all the pipeline rejects with
`MissingHeaders` and status 400 (here under an arbitrary parser, clock
and secret). -/
theorem pipeline_check_order_witness :
    handle_webhook (fun _ => none) (fun _ => none) 0 [] "b" "sec"
        "order.created" none = .error .missingHeaders
    ∧ statusCode .missingHeaders = 400 :=
  ⟨(pipeline_check_order (fun _ => none) (fun _ => none) 0 [] "b" "sec"
      "order.created" none).1 rfl,
   (pipeline_check_order (fun _ => none) (fun _ => none) 0 [] "b" "sec"
      "order.created" none).2.2.2⟩

/-- C10 counterexample: a request whose `x-ghala-timestamp` header is
present with an empty-string value is NOT rejected when a non-empty
`webhook-timestamp` is also present — the empty value falls through
Python `or` to the second header name, so extraction succeeds. -/
theorem extract_empty_header_not_rejected :
    extract_webhook_data
        [("x-ghala-timestamp", ""), ("webhook-timestamp", "1700000000"),
         ("x-ghala-signature", "sig")] "{}"
      = .ok ("1700000000", "sig", "{}")
    ∧ extract_webhook_data
        [("x-ghala-timestamp", ""), ("webhook-timestamp", "1700000000"),
         ("x-ghala-signature", "sig")] "{}"
      ≠ .error .missingHeaders := by
  have h1 : extract_webhook_data
      [("x-ghala-timestamp", ""), ("webhook-timestamp", "1700000000"),
       ("x-ghala-signature", "sig")] "{}"
      = .ok ("1700000000", "sig", "{}") := rfl
  exact ⟨h1, fun hc => Except.noConfusion (h1.symm.trans hc)⟩

/-- C10 (amended): extraction rejects with `MissingHeaders` (400),
without running any timestamp or signature check, exactly like full
absence, whenever the signature header value is absent or empty, or
the *resolved* timestamp value — `x-ghala-timestamp`, falling back
through Python `or` to `webhook-timestamp` when the former is absent
or empty — is absent or empty. -/
theorem extract_falsy_is_missing (headers : List (String × String))
    (body : String)
    (h : falsyStr (pyOr (dictGet (lowerDict headers) "x-ghala-timestamp")
           (dictGet (lowerDict headers) "webhook-timestamp"))
       ∨ falsyStr (dictGet (lowerDict headers) "x-ghala-signature")) :
    extract_webhook_data headers body = .error .missingHeaders
    ∧ (∀ (parseFloat : String → Option ℚ)
        (parseJson : String → Option Json) (now : ℚ)
        (secret event_name : String) (model : Option WebhookModel),
        handle_webhook parseFloat parseJson now headers body secret
          event_name model = .error .missingHeaders)
    ∧ statusCode .missingHeaders = 400 := by
  have hshape : extract_webhook_data headers body =
      match pyOr (dictGet (lowerDict headers) "x-ghala-timestamp")
          (dictGet (lowerDict headers) "webhook-timestamp"),
        dictGet (lowerDict headers) "x-ghala-signature" with
      | some t, some s =>
        if t = "" ∨ s = "" then .error .missingHeaders else .ok (t, s, body)
      | _, _ => .error .missingHeaders := rfl
  have hext : extract_webhook_data headers body = .error .missingHeaders := by
    rw [hshape]
    cases htm : pyOr (dictGet (lowerDict headers) "x-ghala-timestamp")
        (dictGet (lowerDict headers) "webhook-timestamp") with
    | none => rfl
    | some t =>
      cases hsg : dictGet (lowerDict headers) "x-ghala-signature" with
      | none => rfl
      | some s =>
        rw [htm, hsg] at h
        have hts : t = "" ∨ s = "" := by
          rcases h with h | h <;> rcases h with h | h <;>
            simp [falsyStr] at h <;> simp [h]
        rcases hts with h1 | h1 <;> simp [h1]
  refine ⟨hext, ?_, rfl⟩
  intro parseFloat parseJson now secret event_name model
  unfold handle_webhook
  rw [hext]

/-- C10 amended-claim witness: a single present-but-empty
`x-ghala-timestamp` with no fallback header is rejected with
`MissingHeaders`. -/
theorem extract_falsy_is_missing_witness :
    extract_webhook_data
        [("x-ghala-timestamp", ""), ("x-ghala-signature", "sig")] "{}"
      = .error .missingHeaders
    ∧ statusCode .missingHeaders = 400 :=
  ⟨(extract_falsy_is_missing
      [("x-ghala-timestamp", ""), ("x-ghala-signature", "sig")] "{}"
      (Or.inl (Or.inl rfl))).1,
   (extract_falsy_is_missing
      [("x-ghala-timestamp", ""), ("x-ghala-signature", "sig")] "{}"
      (Or.inl (Or.inl rfl))).2.2⟩

/-! ## Decoder lemmas -/

theorem find?_append {α : Type} (p : α → Bool) (a b : List α) :
    List.find? p (a ++ b) =
      match List.find? p a with
      | some x => some x
      | none => List.find? p b := by
  induction a with
  | nil => simp
  | cons x t ih =>
    by_cases hx : p x
    · simp [List.find?, hx]
    · simp [List.find?, hx, ih]

/-- Prepending a binding for a different key leaves a lookup
unchanged (the later-entry-wins lookup scans the older entries only
after the newer ones fail to match other keys). -/
theorem objGet_cons_of_ne (k k' : String) (v : Json)
    (fs : List (String × Json)) (hne : k' ≠ k) :
    objGet ((k, v) :: fs) k' = objGet fs k' := by
  unfold objGet
  rw [List.reverse_cons, find?_append]
  have hnone : List.find? (fun p => p.1 == k') [(k, v)] = none := by
    have hkk : (k == k') = false := beq_eq_false_iff_ne.mpr (Ne.symm hne)
    simp [List.find?, hkk]
  rw [hnone]
  cases hf : List.find? (fun p => p.1 == k') fs.reverse <;> simp [hf]

theorem reqField_cons_of_ne {α : Type} (k k' : String) (v : Json)
    (fs : List (String × Json)) (conv : Json → Option α) (hne : k' ≠ k) :
    reqField ((k, v) :: fs) k' conv = reqField fs k' conv := by
  unfold reqField
  rw [objGet_cons_of_ne k k' v fs hne]

theorem optField_cons_of_ne {α : Type} (k k' : String) (v : Json)
    (fs : List (String × Json)) (conv : Json → Option α) (dflt : Option α)
    (hne : k' ≠ k) :
    optField ((k, v) :: fs) k' conv dflt = optField fs k' conv dflt := by
  unfold optField
  rw [objGet_cons_of_ne k k' v fs hne]

theorem reqSub_cons_of_ne {α : Type} (k k' : String) (v : Json)
    (fs : List (String × Json)) (dec : Json → Except String α)
    (hne : k' ≠ k) :
    reqSub ((k, v) :: fs) k' dec = reqSub fs k' dec := by
  unfold reqSub
  rw [objGet_cons_of_ne k k' v fs hne]

theorem except_bind_ok {ε α β : Type} (a : α) (f : α → Except ε β) :
    (Except.ok a >>= f : Except ε β) = f a := rfl

theorem except_bind_error {ε α β : Type} (e : ε) (f : α → Except ε β) :
    (Except.error e >>= f : Except ε β) = Except.error e := rfl

/-- A successful extraction returns the request body unchanged as its
third component. -/
theorem extract_ok_body (headers : List (String × String))
    (body t s b : String)
    (h : extract_webhook_data headers body = .ok (t, s, b)) : b = body := by
  have hshape : extract_webhook_data headers body =
      match pyOr (dictGet (lowerDict headers) "x-ghala-timestamp")
          (dictGet (lowerDict headers) "webhook-timestamp"),
        dictGet (lowerDict headers) "x-ghala-signature" with
      | some t', some s' =>
        if t' = "" ∨ s' = "" then .error .missingHeaders
        else .ok (t', s', body)
      | _, _ => .error .missingHeaders := rfl
  rw [hshape] at h
  cases htm : pyOr (dictGet (lowerDict headers) "x-ghala-timestamp")
      (dictGet (lowerDict headers) "webhook-timestamp") with
  | none => rw [htm] at h; exact absurd h (by simp)
  | some t' =>
    cases hsg : dictGet (lowerDict headers) "x-ghala-signature" with
    | none => rw [htm, hsg] at h; exact absurd h (by simp)
    | some s' =>
      rw [htm, hsg] at h
      dsimp only at h
      by_cases hif : t' = "" ∨ s' = ""
      · rw [if_pos hif] at h
        exact absurd h (by simp)
      · rw [if_neg hif] at h
        simp only [Except.ok.injEq, Prod.mk.injEq] at h
        exact h.2.2.symm

/-- C6: decoding against the order schema ignores unknown/extra fields
(prepending a binding for any unknown key never changes the result, so
it never causes rejection); a missing required field (`order_id`)
makes decoding fail with no decoded object ever produced; through the
pipeline a success with the order-created model can only arise from a
fully validated envelope whose `data` block is what gets dispatched;
and decode failures carry status 422. -/
theorem order_decode_spec :
    (∀ (k : String) (v : Json) (fs : List (String × Json)),
      k ∉ ["customer", "order_id", "total", "discount_total",
           "promo_discount_amount", "products"] →
      decodeOrderData (.obj ((k, v) :: fs)) = decodeOrderData (.obj fs))
    ∧ (∀ (fs : List (String × Json)) (d : OrderData),
        objGet fs "order_id" = none →
        decodeOrderData (.obj fs) ≠ .ok d)
    ∧ (∀ (parseFloat : String → Option ℚ)
        (parseJson : String → Option Json) (now : ℚ)
        (headers : List (String × String)) (body secret event_name : String)
        (r : DispatchCall × WebhookResponse),
        handle_webhook parseFloat parseJson now headers body secret
          event_name (some .orderCreated) = .ok r →
        ∃ j w, parseJson body = some j
          ∧ decodeOrderCreatedWebhook j = .ok w
          ∧ r.1.payload = .order w.data)
    ∧ (∀ msg, statusCode (.decodeError msg) = 422) := by
  refine ⟨?_, ?_, ?_, fun _ => rfl⟩
  · intro k v fs hk
    simp only [List.mem_cons, List.mem_singleton, not_or] at hk
    obtain ⟨h1, h2, h3, h4, h5, h6⟩ := hk
    simp only [decodeOrderData]
    rw [reqSub_cons_of_ne k "customer" v fs decodeCustomer (Ne.symm h1),
      reqField_cons_of_ne k "order_id" v fs asInt (Ne.symm h2),
      reqField_cons_of_ne k "total" v fs asFloat (Ne.symm h3),
      optField_cons_of_ne k "discount_total" v fs asFloat (some 0) (Ne.symm h4),
      optField_cons_of_ne k "promo_discount_amount" v fs asFloat (some 0)
        (Ne.symm h5),
      reqSub_cons_of_ne k "products" v fs decodeProductList (Ne.symm h6.1)]
  · intro fs d hmiss hcontra
    have hreq : reqField fs "order_id" asInt
        = (.error ("order_id" ++ ": field required") : Except String ℤ) := by
      unfold reqField
      rw [hmiss]
    simp only [decodeOrderData] at hcontra
    cases hc : reqSub fs "customer" decodeCustomer with
    | error e =>
      rw [hc, except_bind_error] at hcontra
      exact Except.noConfusion hcontra
    | ok c =>
      rw [hc, except_bind_ok, hreq, except_bind_error] at hcontra
      exact Except.noConfusion hcontra
  · intro parseFloat parseJson now headers body secret event_name r h
    unfold handle_webhook at h
    cases hext : extract_webhook_data headers body with
    | error e =>
      rw [hext] at h
      exact absurd h (by simp)
    | ok tsb =>
      obtain ⟨t, s, b⟩ := tsb
      rw [hext] at h
      dsimp only at h
      cases hts : verify_timestamp (parseFloat t) now defaultMaxAge with
      | error e =>
        rw [hts] at h
        exact absurd h (by simp)
      | ok u =>
        cases u
        rw [hts] at h
        dsimp only at h
        cases hsig : verify_signature secret t b s with
        | error e =>
          rw [hsig] at h
          exact absurd h (by simp)
        | ok u =>
          cases u
          rw [hsig] at h
          dsimp only at h
          simp only [parse_payload, decodeModel] at h
          cases hjson : parseJson b with
          | none =>
            rw [hjson] at h
            exact absurd h (by simp)
          | some j =>
            rw [hjson] at h
            dsimp only at h
            cases hdec : decodeOrderCreatedWebhook j with
            | error e =>
              rw [hdec] at h
              exact absurd h (by simp [Except.map])
            | ok w =>
              rw [hdec] at h
              simp only [Except.map, Except.ok.injEq] at h
              refine ⟨j, w, ?_, hdec, ?_⟩
              · rw [← extract_ok_body headers body t s b hext]
                exact hjson
              · rw [← h]
                rfl

/-- C6 witness: an `unknown_field` entry leaves the order decode
unchanged (so it is not rejected), and an empty JSON object (no
`order_id`) never decodes to an `OrderData` value. -/
theorem order_decode_spec_witness :
    decodeOrderData (.obj
        [("unknown_field", .str "x"),
         ("customer", .obj [("name", .str "Jane")]), ("order_id", .num 42),
         ("total", .num 1), ("products", .arr [])])
      = decodeOrderData (.obj
        [("customer", .obj [("name", .str "Jane")]), ("order_id", .num 42),
         ("total", .num 1), ("products", .arr [])])
    ∧ decodeOrderData (.obj [])
      ≠ .ok ⟨⟨"x", none, none, none⟩, 0, 0, some 0, some 0, []⟩ :=
  ⟨order_decode_spec.1 "unknown_field" (.str "x")
      [("customer", .obj [("name", .str "Jane")]), ("order_id", .num 42),
       ("total", .num 1), ("products", .arr [])] (by decide),
   order_decode_spec.2.1 [] ⟨⟨"x", none, none, none⟩, 0, 0, some 0, some 0, []⟩
      rfl⟩

/-! ## The computed signature is never the empty string -/

theorem sha256Round_length (s : List Nat) (kw : Nat × Nat) :
    (sha256Round s kw).length = s.length := by
  unfold sha256Round
  split
  · simp_all
  · rfl

theorem foldl_sha256Round_length (kws : List (Nat × Nat)) (s : List Nat) :
    (kws.foldl sha256Round s).length = s.length := by
  induction kws generalizing s with
  | nil => rfl
  | cons kw t ih =>
    simp only [List.foldl]
    rw [ih, sha256Round_length]

theorem sha256Compress_length (s b : List Nat) (h : s.length = 8) :
    (sha256Compress s b).length = 8 := by
  unfold sha256Compress
  simp [foldl_sha256Round_length, h]

theorem foldl_sha256Compress_length (bs : List (List Nat)) (s : List Nat)
    (h : s.length = 8) :
    (bs.foldl sha256Compress s).length = 8 := by
  induction bs generalizing s with
  | nil => exact h
  | cons b t ih =>
    simp only [List.foldl]
    exact ih _ (sha256Compress_length _ _ h)

theorem sha256_ne_nil (msg : List Nat) : sha256 msg ≠ [] := by
  unfold sha256
  have h8 : ((chunksOf 63 (sha256Pad msg)).foldl sha256Compress
      sha256H0).length = 8 :=
    foldl_sha256Compress_length _ _ (by rfl)
  cases hst : (chunksOf 63 (sha256Pad msg)).foldl sha256Compress sha256H0 with
  | nil => rw [hst] at h8; exact absurd h8 (by simp)
  | cons x t =>
    simp [sha256Serialize]

theorem base64Encode_ne_empty (xs : List Nat) (h : xs ≠ []) :
    base64Encode xs ≠ "" := by
  match xs with
  | [] => exact absurd rfl h
  | [a] =>
    intro hc
    have hd := congrArg String.data hc
    simp [base64Encode] at hd
  | [a, b] =>
    intro hc
    have hd := congrArg String.data hc
    simp [base64Encode] at hd
  | a :: b :: c :: rest =>
    intro hc
    have happ : ((⟨[b64Char (a / 4), b64Char (a % 4 * 16 + b / 16),
        b64Char (b % 16 * 4 + c / 64), b64Char (c % 64)]⟩ : String)
          ++ base64Encode rest).data
        = [b64Char (a / 4), b64Char (a % 4 * 16 + b / 16),
           b64Char (b % 16 * 4 + c / 64), b64Char (c % 64)]
          ++ (base64Encode rest).data := by
      cases hb : base64Encode rest with
      | mk ds => rfl
    rw [show base64Encode (a :: b :: c :: rest)
        = (⟨[b64Char (a / 4), b64Char (a % 4 * 16 + b / 16),
             b64Char (b % 16 * 4 + c / 64), b64Char (c % 64)]⟩ : String)
          ++ base64Encode rest from rfl] at hc
    have hd := congrArg String.data hc
    rw [happ] at hd
    simp at hd

/-- The signature the authenticator computes is never the empty
string (so it can never collide with a falsy header value). -/
theorem expectedSignature_ne_empty (secret timestamp body : String) :
    expectedSignature secret timestamp body ≠ "" := by
  unfold expectedSignature hmacSha256
  exact base64Encode_ne_empty _ (sha256_ne_nil _)

/-- C7: when no model is supplied, every successful run of the pipeline
dispatches exactly the decoded request body string, unchanged (the
`json_body` value), as the payload, under the dispatched event name. -/
theorem loose_mode_raw (parseFloat : String → Option ℚ)
    (parseJson : String → Option Json) (now : ℚ)
    (headers : List (String × String)) (body secret event_name : String)
    (r : DispatchCall × WebhookResponse)
    (h : handle_webhook parseFloat parseJson now headers body secret
      event_name none = .ok r) :
    r.1.payload = .raw body ∧ r.1.event = event_name := by
  unfold handle_webhook at h
  cases hext : extract_webhook_data headers body with
  | error e =>
    rw [hext] at h
    exact absurd h (by simp)
  | ok tsb =>
    obtain ⟨t, s, b⟩ := tsb
    rw [hext] at h
    dsimp only at h
    cases hts : verify_timestamp (parseFloat t) now defaultMaxAge with
    | error e =>
      rw [hts] at h
      exact absurd h (by simp)
    | ok u =>
      cases u
      rw [hts] at h
      dsimp only at h
      cases hsig : verify_signature secret t b s with
      | error e =>
        rw [hsig] at h
        exact absurd h (by simp)
      | ok u =>
        cases u
        rw [hsig] at h
        dsimp only at h
        simp only [parse_payload, Except.ok.injEq] at h
        rw [← h]
        rw [extract_ok_body headers body t s b hext]
        exact ⟨rfl, rfl⟩

/-- C7 witness: a concrete loose-mode run (no model) with a matching
signature dispatches the body string `"{}"` unchanged under
`"order.created"`. -/
theorem loose_mode_raw_witness :
    ((⟨⟨"order.created", .raw "{}",
        { event := some "order.created", timestamp := some "100" }⟩,
       ⟨"order.created webhook received and verified"⟩⟩
      : DispatchCall × WebhookResponse)).1.payload = .raw "{}"
    ∧ ((⟨⟨"order.created", .raw "{}",
        { event := some "order.created", timestamp := some "100" }⟩,
       ⟨"order.created webhook received and verified"⟩⟩
      : DispatchCall × WebhookResponse)).1.event = "order.created" :=
  loose_mode_raw (fun _ => some 100) (fun _ => none) 100
    [("x-ghala-timestamp", "100"),
     ("x-ghala-signature", expectedSignature "sec" "100" "{}")]
    "{}" "sec" "order.created" _
    (by
      have hext : extract_webhook_data
          [("x-ghala-timestamp", "100"),
           ("x-ghala-signature", expectedSignature "sec" "100" "{}")] "{}"
          = .ok ("100", expectedSignature "sec" "100" "{}", "{}") := by
        simp [extract_webhook_data, lowerDict, dictGet, pyOr, pyLower,
          lowerChar, List.find?, expectedSignature_ne_empty]
      have hts : verify_timestamp ((fun _ => some (100 : ℚ)) "100") 100
          defaultMaxAge = .ok () := by
        simp [verify_timestamp, defaultMaxAge]
      have hsig : verify_signature "sec" "100" "{}"
          (expectedSignature "sec" "100" "{}") = .ok () := by
        simp [verify_signature]
      unfold handle_webhook
      rw [hext]
      dsimp only
      rw [hts]
      dsimp only
      rw [hsig]
      rfl)

end GhalaHooks
